import Mathlib

/-
Shallow embedding of the delayed-execution and reconciliation core of the
Task-Manager backend (FastAPI + Celery + SQLAlchemy).

Source files embedded:
  backend/app/models/task.py      (Task model, TaskStatus enum)
  backend/app/schemas/task.py     (TaskCreate schema)
  backend/app/services/task_service.py
      (get_task, create_task, get_due_tasks, mark_overdue_tasks_done)
  backend/app/workers/task.py     (_update_task_status, update_task_status_task,
                                   _generate_short_description)
  backend/app/workers/signals.py  (_schedule_due_tasks)

Modelling conventions:
  * Python datetimes are pairs of a wall-clock reading (seconds) and an
    optional UTC offset (none = naive datetime).
  * The database is a list of Task records; SQLAlchemy `select ... filter`
    becomes List.filter / List.find?, and mutating a loaded ORM row followed
    by commit becomes a List.map that rewrites the row(s) with that id.
  * Celery `task.delay(id)` enqueues the task id; the worker later executes
    each enqueued job independently, which we model by folding the job
    function over the enqueued id list (run_scheduled_jobs).  A store
    exception inside one job is caught by the `except` clause of
    update_task_status_task, logged and re-raised to Celery, which records a
    FAILURE for that job only; the other queued jobs still run.
-/

namespace TaskManager

/-- TaskStatus enum from app/models/task.py: PENDING or DONE. -/
inductive TaskStatus where
  | pending
  | done
deriving DecidableEq, Repr

/-- Python datetime: a wall-clock reading `val` (seconds since the epoch as
read on the clock face) plus an optional UTC offset `tz` in seconds.
`tz = none` models a naive datetime, `tz = some 0` models `timezone.utc`. -/
structure PyDateTime where
  val : Int
  tz : Option Int
deriving DecidableEq, Repr

/-- The instant on the UTC timeline denoted by a datetime: wall-clock reading
minus UTC offset.  For a naive value this reads the wall clock as UTC, which
is how the timezone-aware database column (DateTime(timezone=True)) and the
code's explicit normalization both interpret it. -/
def PyDateTime.instant (d : PyDateTime) : Int := d.val - d.tz.getD 0

/-- Python `d.replace(tzinfo=timezone.utc)`: keep the wall-clock reading and
attach the UTC zone. -/
def PyDateTime.replaceUTC (d : PyDateTime) : PyDateTime := ⟨d.val, some 0⟩

/-- Python `datetime.now(timezone.utc)` when the current absolute time is `t`. -/
def nowUTC (t : Int) : PyDateTime := ⟨t, some 0⟩

/-- Python `a >= b` on two timezone-aware datetimes compares the instants
they denote. -/
def PyDateTime.geb (a b : PyDateTime) : Bool := decide (b.instant ≤ a.instant)

/-- Task model from app/models/task.py.  `created_at` / `updated_at` are
server-maintained metadata the core never reads and are omitted. -/
structure Task where
  id : Nat
  title : String
  short_description : Option String
  description : Option String
  text : Option String
  due_date : PyDateTime
  status : TaskStatus
deriving DecidableEq, Repr

/-- The task table: one row per task, `id` is the primary key. -/
abbrev DB := List Task

/-- TaskService.get_task: `select(Task).filter(Task.id == task_id)` with
`scalar_one_or_none()`. -/
def get_task (db : DB) (task_id : Nat) : Option Task :=
  db.find? (fun t => t.id == task_id)

/-- Row filter of TaskService.get_due_tasks and
TaskService.mark_overdue_tasks_done:
`Task.status != TaskStatus.DONE, Task.due_date <= now`. -/
def overdueb (now : Int) (t : Task) : Bool :=
  t.status != TaskStatus.done && decide (t.due_date.instant ≤ now)

/-- TaskService.get_due_tasks: all rows with status != DONE and
due_date <= now (now = `datetime.now(timezone.utc)`). -/
def get_due_tasks (db : DB) (now : Int) : List Task :=
  db.filter (overdueb now)

/-- Row update performed by mark_overdue_tasks_done on each overdue row:
`task.status = TaskStatus.DONE`. -/
def mark_overdue_row (now : Int) (t : Task) : Task :=
  if overdueb now t then { t with status := TaskStatus.done } else t

/-- TaskService.mark_overdue_tasks_done: select the overdue rows, set each
one's status to DONE, commit, and return how many rows were selected.
Called synchronously from the FastAPI lifespan before the app serves
requests (app/main.py). -/
def mark_overdue_tasks_done (db : DB) (now : Int) : DB × Nat :=
  let overdue_tasks := get_due_tasks db now
  (db.map (mark_overdue_row now), overdue_tasks.length)

/-- Outcome of _update_task_status in app/workers/task.py:
`{'error': 'Task ... not found'}`, `{'success': '... status updated to DONE'}`
or `{'success': '... due date not yet reached'}`. -/
inductive UpdResult where
  | notFound
  | updatedDone
  | notYetDue
deriving DecidableEq, Repr

/-- Result of one _update_task_status call: the database after the call, the
returned dict, and whether `db.commit()` ran (a persisted write). -/
structure UpdOutcome where
  db : DB
  result : UpdResult
  committed : Bool
deriving DecidableEq, Repr

/-- The row rewrite `task.status = TaskStatus.DONE` on the row with the given
primary key. -/
def set_status_done_row (task_id : Nat) (t : Task) : Task :=
  if t.id == task_id then { t with status := TaskStatus.done } else t

/-- Setting status = DONE on the loaded task and committing: the table row
with that id now carries status DONE. -/
def set_status_done (db : DB) (task_id : Nat) : DB :=
  db.map (set_status_done_row task_id)

/-- _update_task_status from app/workers/task.py: load the task (notFound if
absent), take `now` in UTC, normalize a naive due_date to UTC via
`replace(tzinfo=timezone.utc)`, and if now >= due_date set status = DONE and
commit; otherwise return without touching the row. -/
def update_task_status (db : DB) (now : Int) (task_id : Nat) : UpdOutcome :=
  match get_task db task_id with
  | none => ⟨db, UpdResult.notFound, false⟩
  | some task =>
    let now_utc := nowUTC now
    let task_due := if task.due_date.tz.isNone
      then task.due_date.replaceUTC else task.due_date
    if now_utc.geb task_due then
      ⟨set_status_done db task_id, UpdResult.updatedDone, true⟩
    else
      ⟨db, UpdResult.notYetDue, false⟩

/-- Final state of one Celery job running update_task_status_task:
`completed r` when the task function returned normally (both the success
messages and the not-found error string are plain returns), `raised` when an
exception escaped — the `except` clause logs it, marks the job FAILURE and
re-raises, so the job fails without touching the row. -/
inductive JobResult where
  | completed (r : UpdResult)
  | raised
deriving DecidableEq, Repr

/-- update_task_status_task from app/workers/task.py, executed by a Celery
worker for one enqueued task id.  `store_fails id = true` models the store
raising (session/commit failure) while this job processes that record; the
exception is caught, logged and re-raised to Celery, failing only this job. -/
def update_task_status_task (store_fails : Nat → Bool) (db : DB) (now : Int)
    (task_id : Nat) : DB × JobResult :=
  if store_fails task_id then
    (db, JobResult.raised)
  else
    let o := update_task_status db now task_id
    (o.db, JobResult.completed o.result)

/-- The Celery worker draining the queue: each enqueued job is executed
independently in order; one job raising does not stop the others. -/
def run_scheduled_jobs (store_fails : Nat → Bool) (now : Int) :
    DB → List Nat → DB × List JobResult
  | db, [] => (db, [])
  | db, task_id :: rest =>
    let step := update_task_status_task store_fails db now task_id
    let next := run_scheduled_jobs store_fails now step.1 rest
    (next.1, step.2 :: next.2)

/-- _schedule_due_tasks from app/workers/signals.py: query the due tasks and
enqueue `update_task_status_task.delay(task.id)` for each; the logged count
`Scheduled {len(due_tasks)} overdue tasks` is the length of this list. -/
def schedule_due_tasks (db : DB) (now : Int) : List Nat :=
  (get_due_tasks db now).map (fun t => t.id)

/-- The reconciliation sweep end to end: enqueue one transition job per due
task (signals.py) and let the worker drain the queue (task.py).  Returns the
resulting table, the count the sweep reports, and the per-job results. -/
def sweep (store_fails : Nat → Bool) (db : DB) (now : Int) :
    DB × Nat × List JobResult :=
  let ids := schedule_due_tasks db now
  let run := run_scheduled_jobs store_fails now db ids
  (run.1, ids.length, run.2)

/-- TaskCreate schema from app/schemas/task.py: title, description, text,
due_date — no status field. -/
structure TaskCreate where
  title : String
  description : Option String
  text : Option String
  due_date : PyDateTime
deriving DecidableEq, Repr

/-- A raw creation request body as a client may send it, possibly carrying a
status field. -/
structure CreatePayload where
  title : String
  description : Option String
  text : Option String
  due_date : PyDateTime
  status : Option TaskStatus
deriving DecidableEq, Repr

/-- Pydantic validation of the request body against TaskCreate: only the
schema's fields are read; a status field in the payload is not part of the
schema and is dropped. -/
def parse_task_create (p : CreatePayload) : TaskCreate :=
  ⟨p.title, p.description, p.text, p.due_date⟩

/-- TaskService.create_task: `Task(**task_create.model_dump())` inserts a row
whose status is the model column default TaskStatus.PENDING
(app/models/task.py) and whose short_description is NULL; `next_id` is the
autoincremented primary key. -/
def create_task (db : DB) (next_id : Nat) (tc : TaskCreate) : DB × Task :=
  let task : Task :=
    { id := next_id
      title := tc.title
      short_description := none
      description := tc.description
      text := tc.text
      due_date := tc.due_date
      status := TaskStatus.pending }
  (db ++ [task], task)

/-- Python truthiness of the nullable text column: falsy when NULL or the
empty string. -/
def py_truthy : Option String → Bool
  | none => false
  | some s => s != ""

/-- The short description _generate_short_description computes:
`(task.text[:100] + "...") if task.text else "Lorem ipsum dolor sit amet"`. -/
def short_description_of (text : Option String) : String :=
  if py_truthy text then (text.getD "").take 100 ++ "..."
  else "Lorem ipsum dolor sit amet"

/-- _generate_short_description from app/workers/task.py: load the task
(false = not found), compute the short description and commit it onto the
row. -/
def generate_short_description (db : DB) (task_id : Nat) : DB × Bool :=
  match get_task db task_id with
  | none => (db, false)
  | some task =>
    let sd := short_description_of task.text
    (db.map (fun t =>
      if t.id == task_id then { t with short_description := some sd } else t),
     true)

/-- The status column of the row with the given id, if the row exists. -/
def status_of (db : DB) (task_id : Nat) : Option TaskStatus :=
  (get_task db task_id).map (fun t => t.status)

/-- Relation between a table before and after a core operation: DONE rows
stay DONE, and any row whose status changed now reads DONE. -/
def StatusMono (db db' : DB) : Prop :=
  ∀ i, (status_of db i = some TaskStatus.done →
          status_of db' i = some TaskStatus.done) ∧
    (status_of db' i ≠ status_of db i →
          status_of db' i = some TaskStatus.done)

/-- One core status-writing operation: a single transition call
(workers/task.py), the startup catch-up (TaskService.mark_overdue_tasks_done,
run from the FastAPI lifespan), or a full sweep (signals.py enqueue plus
worker drain, with an arbitrary store-failure pattern). -/
inductive CoreStep : DB → DB → Prop where
  | transition (db : DB) (now : Int) (task_id : Nat) :
      CoreStep db (update_task_status db now task_id).db
  | catch_up (db : DB) (now : Int) :
      CoreStep db (mark_overdue_tasks_done db now).1
  | sweep_run (db : DB) (now : Int) (store_fails : Nat → Bool) :
      CoreStep db (sweep store_fails db now).1

/-! ### Basic lemmas about row lookup and row rewrites -/

theorem get_task_map {f : Task → Task} (hf : ∀ t, (f t).id = t.id)
    (db : DB) (i : Nat) :
    get_task (db.map f) i = Option.map f (get_task db i) := by
  unfold get_task
  rw [List.find?_map]
  have hp : ((fun t : Task => t.id == i) ∘ f) = (fun t : Task => t.id == i) := by
    funext t
    simp only [Function.comp_apply, hf]
  rw [hp]

theorem get_task_id {db : DB} {i : Nat} {t : Task}
    (h : get_task db i = some t) : t.id = i := by
  simpa using List.find?_some h

theorem get_task_mem {db : DB} {i : Nat} {t : Task}
    (h : get_task db i = some t) : t ∈ db :=
  List.mem_of_find?_eq_some h

theorem get_task_of_mem_nodup {db : DB} {t : Task}
    (hnodup : (db.map (fun u => u.id)).Nodup) (hmem : t ∈ db) :
    get_task db t.id = some t := by
  induction db with
  | nil => cases hmem
  | cons u rest ih =>
    rw [List.map_cons, List.nodup_cons] at hnodup
    unfold get_task
    rw [List.find?_cons]
    rcases List.mem_cons.mp hmem with rfl | hmem'
    · simp
    · have hne : (u.id == t.id) = false := by
        rw [beq_eq_false_iff_ne]
        intro hb
        exact hnodup.1 (hb ▸ List.mem_map_of_mem (fun v => v.id) hmem')
      simp only [hne]
      exact ih hnodup.2 hmem'

theorem set_status_done_row_id (j : Nat) (t : Task) :
    (set_status_done_row j t).id = t.id := by
  unfold set_status_done_row
  by_cases h : (t.id == j) = true <;> simp [h]

theorem set_status_done_row_due (j : Nat) (t : Task) :
    (set_status_done_row j t).due_date = t.due_date := by
  unfold set_status_done_row
  by_cases h : (t.id == j) = true <;> simp [h]

theorem set_status_done_row_idem (j : Nat) (t : Task) :
    set_status_done_row j (set_status_done_row j t) = set_status_done_row j t := by
  unfold set_status_done_row
  by_cases h : (t.id == j) = true <;> simp [h]

theorem mark_overdue_row_id (now : Int) (t : Task) :
    (mark_overdue_row now t).id = t.id := by
  unfold mark_overdue_row
  by_cases h : overdueb now t = true <;> simp [h]

/-- The instant of the normalized due date equals the instant of the stored
due date, where a naive stored value is read as UTC. -/
theorem normalized_due_instant (d : PyDateTime) :
    (if d.tz.isNone then d.replaceUTC else d).instant = d.instant := by
  cases d with
  | mk v z => cases z <;> rfl

/-- update_task_status on an existing task takes the DONE branch exactly when
the task's due instant has passed. -/
theorem update_task_status_of_due {db : DB} {now : Int} {task_id : Nat} {t : Task}
    (h : get_task db task_id = some t) (hdue : t.due_date.instant ≤ now) :
    update_task_status db now task_id =
      ⟨set_status_done db task_id, UpdResult.updatedDone, true⟩ := by
  unfold update_task_status
  rw [h]
  have hn : (nowUTC now).instant = now := by
    simp [nowUTC, PyDateTime.instant]
  have hg : (nowUTC now).geb
      (if t.due_date.tz.isNone then t.due_date.replaceUTC else t.due_date) = true := by
    unfold PyDateTime.geb
    rw [normalized_due_instant, hn]
    exact decide_eq_true hdue
  simp only [hg, if_true]

theorem update_task_status_of_not_due {db : DB} {now : Int} {task_id : Nat} {t : Task}
    (h : get_task db task_id = some t) (hdue : now < t.due_date.instant) :
    update_task_status db now task_id = ⟨db, UpdResult.notYetDue, false⟩ := by
  unfold update_task_status
  rw [h]
  have hn : (nowUTC now).instant = now := by
    simp [nowUTC, PyDateTime.instant]
  have hg : (nowUTC now).geb
      (if t.due_date.tz.isNone then t.due_date.replaceUTC else t.due_date) = false := by
    unfold PyDateTime.geb
    rw [normalized_due_instant, hn]
    exact decide_eq_false (not_le.mpr hdue)
  simp only [hg, Bool.false_eq_true, if_false]

theorem status_of_set_status_done {db : DB} {task_id : Nat} {t : Task}
    (h : get_task db task_id = some t) :
    status_of (set_status_done db task_id) task_id = some TaskStatus.done := by
  unfold status_of set_status_done
  rw [get_task_map (set_status_done_row_id task_id), h]
  have hb : (t.id == task_id) = true := by
    rw [get_task_id h]; simp
  simp [set_status_done_row, hb]

/-! ### Status monotonicity of the core operations -/

theorem statusMono_refl (db : DB) : StatusMono db db :=
  fun _ => ⟨fun h => h, fun h => absurd rfl h⟩

theorem statusMono_trans {db1 db2 db3 : DB}
    (h12 : StatusMono db1 db2) (h23 : StatusMono db2 db3) :
    StatusMono db1 db3 := by
  intro i
  refine ⟨fun h => (h23 i).1 ((h12 i).1 h), fun hch => ?_⟩
  by_cases h2 : status_of db3 i = status_of db2 i
  · rw [h2]
    apply (h12 i).2
    intro h1
    exact hch (h2.trans h1)
  · exact (h23 i).2 h2

theorem statusMono_map {f : Task → Task} (hid : ∀ t, (f t).id = t.id)
    (hst : ∀ t, (f t).status = t.status ∨ (f t).status = TaskStatus.done)
    (db : DB) : StatusMono db (db.map f) := by
  intro i
  unfold status_of
  rw [get_task_map hid]
  cases hg : get_task db i with
  | none => simp
  | some t =>
    constructor
    · intro h
      have ht : t.status = TaskStatus.done := by simpa using h
      rcases hst t with h' | h' <;> simp [h', ht]
    · intro hch
      rcases hst t with h' | h'
      · exact absurd (by simp [h']) hch
      · simp [h']

theorem statusMono_set_status_done (db : DB) (j : Nat) :
    StatusMono db (set_status_done db j) :=
  statusMono_map (set_status_done_row_id j)
    (fun t => by
      unfold set_status_done_row
      by_cases h : (t.id == j) = true <;> simp [h]) db

theorem statusMono_mark (db : DB) (now : Int) :
    StatusMono db (mark_overdue_tasks_done db now).1 :=
  statusMono_map (mark_overdue_row_id now)
    (fun t => by
      unfold mark_overdue_row
      by_cases h : overdueb now t = true <;> simp [h]) db

theorem statusMono_update (db : DB) (now : Int) (j : Nat) :
    StatusMono db (update_task_status db now j).db := by
  unfold update_task_status
  cases hg : get_task db j with
  | none =>
    simp only [hg]
    exact statusMono_refl db
  | some t =>
    simp only [hg]
    by_cases hb : (nowUTC now).geb
        (if t.due_date.tz.isNone then t.due_date.replaceUTC else t.due_date) = true
    · rw [if_pos hb]
      exact statusMono_set_status_done db j
    · rw [if_neg hb]
      exact statusMono_refl db

theorem statusMono_job (store_fails : Nat → Bool) (db : DB) (now : Int) (j : Nat) :
    StatusMono db (update_task_status_task store_fails db now j).1 := by
  unfold update_task_status_task
  split
  · exact statusMono_refl db
  · exact statusMono_update db now j

theorem statusMono_run (store_fails : Nat → Bool) (now : Int) :
    ∀ (ids : List Nat) (db : DB),
      StatusMono db (run_scheduled_jobs store_fails now db ids).1 := by
  intro ids
  induction ids with
  | nil => intro db; exact statusMono_refl db
  | cons j rest ih =>
    intro db
    exact statusMono_trans (statusMono_job store_fails db now j)
      (ih (update_task_status_task store_fails db now j).1)

/-! ### Jobs preserve row existence and due dates -/

theorem get_task_due_set (db : DB) (j i : Nat) :
    Option.map (fun t => t.due_date) (get_task (set_status_done db j) i)
      = Option.map (fun t => t.due_date) (get_task db i) := by
  unfold set_status_done
  rw [get_task_map (set_status_done_row_id j)]
  cases get_task db i <;> simp [set_status_done_row_due]

theorem get_task_due_job (store_fails : Nat → Bool) (db : DB) (now : Int) (j i : Nat) :
    Option.map (fun t => t.due_date)
        (get_task (update_task_status_task store_fails db now j).1 i)
      = Option.map (fun t => t.due_date) (get_task db i) := by
  unfold update_task_status_task
  split
  · rfl
  · unfold update_task_status
    cases hg : get_task db j with
    | none => simp only [hg]
    | some t =>
      simp only [hg]
      by_cases hb : (nowUTC now).geb
          (if t.due_date.tz.isNone then t.due_date.replaceUTC else t.due_date) = true
      · rw [if_pos hb]
        exact get_task_due_set db j i
      · rw [if_neg hb]

theorem status_of_set_ne {db : DB} {j i : Nat} (hne : j ≠ i) :
    status_of (set_status_done db j) i = status_of db i := by
  unfold status_of set_status_done
  rw [get_task_map (set_status_done_row_id j)]
  cases hg : get_task db i with
  | none => rfl
  | some t =>
    have hb : (t.id == j) = false := by
      rw [beq_eq_false_iff_ne, get_task_id hg]
      exact fun h => hne h.symm
    simp [set_status_done_row, hb]

theorem status_of_job_ne (store_fails : Nat → Bool) {db : DB} {now : Int}
    {j i : Nat} (hne : j ≠ i) :
    status_of (update_task_status_task store_fails db now j).1 i
      = status_of db i := by
  unfold update_task_status_task
  split
  · rfl
  · unfold update_task_status
    cases hg : get_task db j with
    | none => simp only [hg]
    | some t =>
      simp only [hg]
      by_cases hb : (nowUTC now).geb
          (if t.due_date.tz.isNone then t.due_date.replaceUTC else t.due_date) = true
      · rw [if_pos hb]
        exact status_of_set_ne hne
      · rw [if_neg hb]

theorem run_untouched (store_fails : Nat → Bool) (now : Int) :
    ∀ (ids : List Nat) (db : DB) (i : Nat), (∀ j ∈ ids, j ≠ i) →
      status_of (run_scheduled_jobs store_fails now db ids).1 i = status_of db i := by
  intro ids
  induction ids with
  | nil => intro db i _; rfl
  | cons j rest ih =>
    intro db i hne
    have hj : j ≠ i := hne j (List.mem_cons_self j rest)
    calc status_of (run_scheduled_jobs store_fails now
            (update_task_status_task store_fails db now j).1 rest).1 i
        = status_of (update_task_status_task store_fails db now j).1 i :=
          ih _ i (fun k hk => hne k (List.mem_cons_of_mem j hk))
      _ = status_of db i := status_of_job_ne store_fails hj

theorem run_length (store_fails : Nat → Bool) (now : Int) :
    ∀ (ids : List Nat) (db : DB),
      (run_scheduled_jobs store_fails now db ids).2.length = ids.length := by
  intro ids
  induction ids with
  | nil => intro db; rfl
  | cons j rest ih =>
    intro db
    simp only [run_scheduled_jobs, List.length_cons]
    rw [ih]

theorem run_done_of_mem (store_fails : Nat → Bool) (now : Int) :
    ∀ (ids : List Nat) (db : DB) (i : Nat) (t : Task),
      i ∈ ids → store_fails i = false → get_task db i = some t →
      t.due_date.instant ≤ now →
      status_of (run_scheduled_jobs store_fails now db ids).1 i
        = some TaskStatus.done := by
  intro ids
  induction ids with
  | nil => intro db i t hmem; cases hmem
  | cons j rest ih =>
    intro db i t hmem hF hg hdue
    by_cases hij : i = j
    · subst hij
      have hstep : (update_task_status_task store_fails db now i).1
          = set_status_done db i := by
        unfold update_task_status_task
        rw [hF]
        simp only [Bool.false_eq_true, if_false]
        rw [update_task_status_of_due hg hdue]
      have hdone : status_of (set_status_done db i) i = some TaskStatus.done :=
        status_of_set_status_done hg
      show status_of (run_scheduled_jobs store_fails now
          (update_task_status_task store_fails db now i).1 rest).1 i
        = some TaskStatus.done
      rw [hstep]
      exact (statusMono_run store_fails now rest (set_status_done db i) i).1 hdone
    · have hmem' : i ∈ rest := by
        rcases List.mem_cons.mp hmem with h | h
        · exact absurd h hij
        · exact h
      have hopt := get_task_due_job store_fails db now j i
      rw [hg] at hopt
      cases hg1 : get_task (update_task_status_task store_fails db now j).1 i with
      | none => rw [hg1] at hopt; cases hopt
      | some t' =>
        rw [hg1] at hopt
        have hdue' : t'.due_date = t.due_date := by simpa using hopt
        exact ih (update_task_status_task store_fails db now j).1 i t' hmem' hF hg1
          (by rw [hdue']; exact hdue)

theorem run_all_updated (now : Int) :
    ∀ (ids : List Nat) (db : DB),
      (∀ i ∈ ids, ∃ t, get_task db i = some t ∧ t.due_date.instant ≤ now) →
      (run_scheduled_jobs (fun _ => false) now db ids).2
        = ids.map (fun _ => JobResult.completed UpdResult.updatedDone) := by
  intro ids
  induction ids with
  | nil => intro db _; rfl
  | cons j rest ih =>
    intro db h
    obtain ⟨t, hg, hdue⟩ := h j (List.mem_cons_self j rest)
    have hupd := update_task_status_of_due hg hdue
    have hstep : update_task_status_task (fun _ => false) db now j
        = (set_status_done db j, JobResult.completed UpdResult.updatedDone) := by
      simp [update_task_status_task, hupd]
    have hrest : ∀ i ∈ rest,
        ∃ t', get_task (set_status_done db j) i = some t'
          ∧ t'.due_date.instant ≤ now := by
      intro i hi
      obtain ⟨t', hg', hdue'⟩ := h i (List.mem_cons_of_mem j hi)
      have hopt := get_task_due_set db j i
      rw [hg'] at hopt
      cases hg1 : get_task (set_status_done db j) i with
      | none => rw [hg1] at hopt; cases hopt
      | some u =>
        rw [hg1] at hopt
        refine ⟨u, rfl, ?_⟩
        have : u.due_date = t'.due_date := by simpa using hopt
        rw [this]
        exact hdue'
    show ((update_task_status_task (fun _ => false) db now j).2 ::
        (run_scheduled_jobs (fun _ => false) now
          (update_task_status_task (fun _ => false) db now j).1 rest).2)
      = JobResult.completed UpdResult.updatedDone ::
          rest.map (fun _ => JobResult.completed UpdResult.updatedDone)
    rw [hstep]
    exact congrArg _ (ih (set_status_done db j) hrest)

/-! ### Helper lemmas for the claims -/

theorem mark_overdue_row_due (now : Int) (t : Task) :
    (mark_overdue_row now t).due_date = t.due_date := by
  unfold mark_overdue_row
  by_cases h : overdueb now t = true <;> simp [h]

theorem overdueb_due {now : Int} {t : Task} (h : overdueb now t = true) :
    t.due_date.instant ≤ now := by
  unfold overdueb at h
  rw [Bool.and_eq_true] at h
  exact of_decide_eq_true h.2

theorem overdueb_of_pending {now : Int} {t : Task}
    (hp : t.status = TaskStatus.pending) (hd : t.due_date.instant ≤ now) :
    overdueb now t = true := by
  unfold overdueb
  rw [Bool.and_eq_true]
  exact ⟨by rw [hp]; decide, decide_eq_true hd⟩

theorem mem_schedule_of_pending_due {db : DB} {now : Int} {i : Nat} {t : Task}
    (h : get_task db i = some t) (hpend : t.status = TaskStatus.pending)
    (hdue : t.due_date.instant ≤ now) :
    i ∈ schedule_due_tasks db now := by
  have hf : t ∈ get_due_tasks db now :=
    List.mem_filter.mpr ⟨get_task_mem h, overdueb_of_pending hpend hdue⟩
  have hm := List.mem_map_of_mem (fun u : Task => u.id) hf
  unfold schedule_due_tasks
  rw [← get_task_id h]
  exact hm

theorem count_const_jobresult (r : JobResult) (l : List Nat) :
    (l.map (fun _ => r)).count r = l.length := by
  induction l with
  | nil => rfl
  | cons x xs ih => simp [List.count_cons, ih]

/-! ### Claim theorems -/

theorem get_task_update_row (db : DB) (task_id : Nat) (t : Task) (g : Task → Task)
    (hgid : ∀ u, (g u).id = u.id) (h : get_task db task_id = some t) :
    get_task (db.map g) task_id = some (g t) := by
  rw [get_task_map hgid, h]
  rfl

/-- C5: for an existing task whose due date is still in the future,
_update_task_status returns the not-yet-reached outcome, performs no commit,
leaves the table unchanged, and a PENDING task stays PENDING. -/
theorem C5_not_yet_due (db : DB) (now : Int) (task_id : Nat) (t : Task)
    (h : get_task db task_id = some t) (hdue : now < t.due_date.instant)
    (hpend : t.status = TaskStatus.pending) :
    update_task_status db now task_id = ⟨db, UpdResult.notYetDue, false⟩ ∧
    status_of (update_task_status db now task_id).db task_id
      = some TaskStatus.pending := by
  have h1 := update_task_status_of_not_due h hdue
  refine ⟨h1, ?_⟩
  rw [h1]
  show status_of db task_id = some TaskStatus.pending
  unfold status_of
  rw [h]
  simp [hpend]

/-- Witness for C5: one PENDING task due at time 10, transition invoked at
time 3 returns the no-op outcome and the task stays PENDING. -/
theorem C5_witness :
    get_task [(⟨1, "a", none, none, none, ⟨10, some 0⟩, TaskStatus.pending⟩ : Task)] 1
      = some ⟨1, "a", none, none, none, ⟨10, some 0⟩, TaskStatus.pending⟩ ∧
    (3 : Int) < (PyDateTime.instant ⟨10, some 0⟩) ∧
    update_task_status [⟨1, "a", none, none, none, ⟨10, some 0⟩, TaskStatus.pending⟩] 3 1
      = ⟨[⟨1, "a", none, none, none, ⟨10, some 0⟩, TaskStatus.pending⟩],
          UpdResult.notYetDue, false⟩ :=
  ⟨by decide, by decide,
    (C5_not_yet_due [⟨1, "a", none, none, none, ⟨10, some 0⟩, TaskStatus.pending⟩]
      3 1 ⟨1, "a", none, none, none, ⟨10, some 0⟩, TaskStatus.pending⟩
      (by decide) (by decide) rfl).1⟩

/-- C6: a due_date stored without timezone information is compared as if it
were UTC: on an existing task with a naive due_date, the transition takes the
DONE branch exactly when the naive wall-clock value, read as a UTC instant,
is at or before the current UTC time, and in that case the task ends DONE. -/
theorem C6_naive_due_utc (db : DB) (now : Int) (task_id : Nat) (t : Task)
    (h : get_task db task_id = some t) (htz : t.due_date.tz = none) :
    ((update_task_status db now task_id).result = UpdResult.updatedDone
        ↔ t.due_date.val ≤ now) ∧
    (t.due_date.val ≤ now →
      status_of (update_task_status db now task_id).db task_id
        = some TaskStatus.done) := by
  have hval : t.due_date.instant = t.due_date.val := by
    unfold PyDateTime.instant
    rw [htz]
    simp
  constructor
  · constructor
    · intro hres
      by_contra hlt
      push_neg at hlt
      rw [update_task_status_of_not_due h (by rw [hval]; exact hlt)] at hres
      simp at hres
    · intro hle
      rw [update_task_status_of_due h (by rw [hval]; exact hle)]
  · intro hle
    rw [update_task_status_of_due h (by rw [hval]; exact hle)]
    exact status_of_set_status_done h

/-- Witness for C6 at the spec's example: due_date 2025-01-01T00:00:00 with
no zone (epoch 1735689600), evaluated at 2025-01-01T00:00:01Z
(epoch 1735689601): the task transitions to DONE. -/
theorem C6_witness :
    get_task [(⟨1, "a", none, none, none, ⟨1735689600, none⟩,
        TaskStatus.pending⟩ : Task)] 1
      = some ⟨1, "a", none, none, none, ⟨1735689600, none⟩, TaskStatus.pending⟩ ∧
    (PyDateTime.mk 1735689600 none).tz = none ∧
    status_of (update_task_status
        [⟨1, "a", none, none, none, ⟨1735689600, none⟩, TaskStatus.pending⟩]
        1735689601 1).db 1 = some TaskStatus.done :=
  ⟨by decide, rfl,
    (C6_naive_due_utc
      [⟨1, "a", none, none, none, ⟨1735689600, none⟩, TaskStatus.pending⟩]
      1735689601 1
      ⟨1, "a", none, none, none, ⟨1735689600, none⟩, TaskStatus.pending⟩
      (by decide) rfl).2 (by decide)⟩

/-- C7: for a task id with no record, _update_task_status returns the
not-found error dict without touching the table, and the Celery task wrapper
update_task_status_task returns that error normally (it marks the job FAILURE
via update_state but does not raise). -/
theorem C7_not_found (db : DB) (now : Int) (task_id : Nat)
    (store_fails : Nat → Bool)
    (h : get_task db task_id = none) (hs : store_fails task_id = false) :
    update_task_status db now task_id = ⟨db, UpdResult.notFound, false⟩ ∧
    update_task_status_task store_fails db now task_id
      = (db, JobResult.completed UpdResult.notFound) := by
  have h1 : update_task_status db now task_id = ⟨db, UpdResult.notFound, false⟩ := by
    unfold update_task_status
    rw [h]
  refine ⟨h1, ?_⟩
  unfold update_task_status_task
  rw [hs]
  simp only [Bool.false_eq_true, if_false]
  rw [h1]

/-- Witness for C7: transition of id 7 against an empty table. -/
theorem C7_witness :
    get_task ([] : DB) 7 = none ∧
    update_task_status ([] : DB) 0 7 = ⟨[], UpdResult.notFound, false⟩ ∧
    update_task_status_task (fun _ => false) ([] : DB) 0 7
      = ([], JobResult.completed UpdResult.notFound) := by
  refine ⟨rfl, ?_, ?_⟩
  · exact (C7_not_found ([] : DB) 0 7 (fun _ => false) rfl rfl).1
  · exact (C7_not_found ([] : DB) 0 7 (fun _ => false) rfl rfl).2

/-- C9: a task created through create_task has status PENDING whatever the
request payload contained: the TaskCreate schema has no status field, so a
client-supplied status never reaches the model and the column default
PENDING applies; the new row is stored as created. -/
theorem C9_create_pending (db : DB) (next_id : Nat) (p : CreatePayload) :
    (create_task db next_id (parse_task_create p)).2.status = TaskStatus.pending ∧
    (create_task db next_id (parse_task_create p)).2
      ∈ (create_task db next_id (parse_task_create p)).1 ∧
    (∀ s : Option TaskStatus,
      parse_task_create p = parse_task_create { p with status := s }) := by
  refine ⟨rfl, ?_, fun s => rfl⟩
  show _ ∈ db ++ [_]
  exact List.mem_append_right _ (List.mem_singleton.mpr rfl)

/-- C10: _generate_short_description writes, onto the existing task, the
first 100 characters of its text followed by "..." whenever the text column
is truthy (the suffix is appended even when the text is shorter than 100
characters), and the fixed placeholder when the text is NULL or empty. -/
theorem C10_short_description (db : DB) (task_id : Nat) (t : Task)
    (h : get_task db task_id = some t) :
    (generate_short_description db task_id).2 = true ∧
    get_task (generate_short_description db task_id).1 task_id
      = some { t with short_description := some (short_description_of t.text) } ∧
    (∀ s : String, t.text = some s → s ≠ "" →
      short_description_of t.text = s.take 100 ++ "...") ∧
    ((t.text = none ∨ t.text = some "") →
      short_description_of t.text = "Lorem ipsum dolor sit amet") := by
  have hgen : generate_short_description db task_id
      = (db.map (fun u => if u.id == task_id
          then { u with short_description := some (short_description_of t.text) }
          else u), true) := by
    unfold generate_short_description
    rw [h]
  refine ⟨by rw [hgen], ?_, ?_, ?_⟩
  · rw [hgen]
    show get_task (db.map (fun u => if u.id == task_id
        then { u with short_description := some (short_description_of t.text) }
        else u)) task_id = _
    rw [get_task_update_row db task_id t _
      (fun u => by by_cases hb : (u.id == task_id) = true <;> simp [hb]) h]
    have hb : (t.id == task_id) = true := by rw [get_task_id h]; simp
    simp [hb]
  · intro s hs hne
    rw [hs]
    simp [short_description_of, py_truthy, hne]
  · intro hc
    rcases hc with hc | hc <;> rw [hc] <;> decide

/-- C1 counterexample: one task overdue since time 0, transition called
twice at time 1.  The claim says the second call (task already DONE) returns
AlreadyDone and performs no persisted write; in the code there is no
status check, so the second call again takes the update branch, returns the
updated-to-DONE outcome and performs another commit. -/
theorem C1_counterexample :
    (update_task_status
        (update_task_status
          [⟨1, "a", none, none, none, ⟨0, some 0⟩, TaskStatus.pending⟩] 1 1).db
        1 1).result = UpdResult.updatedDone ∧
    (update_task_status
        (update_task_status
          [⟨1, "a", none, none, none, ⟨0, some 0⟩, TaskStatus.pending⟩] 1 1).db
        1 1).committed = true ∧
    ¬ ((update_task_status
        (update_task_status
          [⟨1, "a", none, none, none, ⟨0, some 0⟩, TaskStatus.pending⟩] 1 1).db
        1 1).committed = false) := by
  decide

/-- C1 amended: once the due date has passed, the first transition call
returns the updated-to-DONE outcome with a commit and the task reads DONE;
the table is from then on a fixed point, so any number of further calls
leaves status DONE and the table unchanged — but every further call again
returns the updated-to-DONE outcome and performs another commit (the code
has no AlreadyDone no-op branch). -/
theorem C1_idempotent_convergence (db : DB) (now : Int) (task_id : Nat)
    (t : Task) (h : get_task db task_id = some t)
    (hdue : t.due_date.instant ≤ now) :
    (update_task_status db now task_id).result = UpdResult.updatedDone ∧
    (update_task_status db now task_id).committed = true ∧
    status_of (update_task_status db now task_id).db task_id
      = some TaskStatus.done ∧
    update_task_status (update_task_status db now task_id).db now task_id
      = ⟨(update_task_status db now task_id).db, UpdResult.updatedDone, true⟩ ∧
    (∀ n : Nat, (fun d => (update_task_status d now task_id).db)^[n]
        (update_task_status db now task_id).db
      = (update_task_status db now task_id).db) := by
  have h1 := update_task_status_of_due h hdue
  have hset : get_task (set_status_done db task_id) task_id
      = some (set_status_done_row task_id t) := by
    unfold set_status_done
    exact get_task_update_row db task_id t _ (set_status_done_row_id task_id) h
  have hdue2 : (set_status_done_row task_id t).due_date.instant ≤ now := by
    rw [set_status_done_row_due]
    exact hdue
  have h2 := update_task_status_of_due hset hdue2
  have hidem : set_status_done (set_status_done db task_id) task_id
      = set_status_done db task_id := by
    unfold set_status_done
    rw [List.map_map]
    have hc : (set_status_done_row task_id ∘ set_status_done_row task_id)
        = set_status_done_row task_id :=
      funext fun u => by
        simp only [Function.comp_apply, set_status_done_row_idem]
    rw [hc]
  have hfix : update_task_status (update_task_status db now task_id).db now task_id
      = ⟨(update_task_status db now task_id).db, UpdResult.updatedDone, true⟩ := by
    rw [h1]
    show update_task_status (set_status_done db task_id) now task_id = _
    rw [h2, hidem]
  refine ⟨by rw [h1], by rw [h1], ?_, hfix, ?_⟩
  · rw [h1]
    exact status_of_set_status_done h
  · intro n
    induction n with
    | zero => rfl
    | succ k ihk =>
      rw [Function.iterate_succ_apply', ihk]
      show (update_task_status (update_task_status db now task_id).db now task_id).db
        = (update_task_status db now task_id).db
      rw [hfix]

/-- Witness for C1: one task overdue since time 0, transitioned at time 1:
the call reports the updated-to-DONE outcome with a commit and the task
reads DONE. -/
theorem C1_witness :
    get_task [(⟨1, "a", none, none, none, ⟨0, some 0⟩,
        TaskStatus.pending⟩ : Task)] 1
      = some ⟨1, "a", none, none, none, ⟨0, some 0⟩, TaskStatus.pending⟩ ∧
    (PyDateTime.instant ⟨0, some 0⟩) ≤ (1 : Int) ∧
    status_of (update_task_status
        [⟨1, "a", none, none, none, ⟨0, some 0⟩, TaskStatus.pending⟩] 1 1).db 1
      = some TaskStatus.done :=
  ⟨by decide, by decide,
    (C1_idempotent_convergence
      [⟨1, "a", none, none, none, ⟨0, some 0⟩, TaskStatus.pending⟩] 1 1
      ⟨1, "a", none, none, none, ⟨0, some 0⟩, TaskStatus.pending⟩
      (by decide) (by decide)).2.2.1⟩

/-- C2: after mark_overdue_tasks_done — run synchronously in the FastAPI
lifespan before the server accepts requests — every task whose due date has
passed reads status DONE, and the returned count is the number of overdue
(status != DONE, due_date <= now) tasks, each of which the call marked DONE. -/
theorem C2_catch_up (db : DB) (now : Int) :
    (∀ t, t ∈ (mark_overdue_tasks_done db now).1 →
      t.due_date.instant ≤ now → t.status = TaskStatus.done) ∧
    (mark_overdue_tasks_done db now).2 = (get_due_tasks db now).length ∧
    (∀ t, t ∈ get_due_tasks db now →
      { t with status := TaskStatus.done } ∈ (mark_overdue_tasks_done db now).1) := by
  refine ⟨?_, rfl, ?_⟩
  · intro t ht hdue
    obtain ⟨u, _, rfl⟩ := List.mem_map.mp ht
    rw [mark_overdue_row_due] at hdue
    unfold mark_overdue_row
    by_cases hst : u.status = TaskStatus.done
    · by_cases hb : overdueb now u = true
      · rw [if_pos hb]
      · rw [if_neg hb]
        exact hst
    · have hb : overdueb now u = true := by
        unfold overdueb
        rw [Bool.and_eq_true]
        exact ⟨by simpa using hst, decide_eq_true hdue⟩
      rw [if_pos hb]
  · intro t ht
    have hb : overdueb now t = true := (List.mem_filter.mp ht).2
    have hm := List.mem_map_of_mem (mark_overdue_row now) (List.mem_filter.mp ht).1
    rw [show mark_overdue_row now t = { t with status := TaskStatus.done } by
      unfold mark_overdue_row
      rw [if_pos hb]] at hm
    exact hm

/-- Witness for C2: one PENDING task overdue since time 0, catch-up run at
time 5: the row reads DONE afterwards and the returned count is 1. -/
theorem C2_witness :
    (⟨1, "a", none, none, none, ⟨0, some 0⟩, TaskStatus.done⟩ : Task)
        ∈ (mark_overdue_tasks_done
            [⟨1, "a", none, none, none, ⟨0, some 0⟩, TaskStatus.pending⟩] 5).1 ∧
    (PyDateTime.instant ⟨0, some 0⟩) ≤ (5 : Int) ∧
    (⟨1, "a", none, none, none, ⟨0, some 0⟩, TaskStatus.done⟩ : Task).status
      = TaskStatus.done ∧
    (mark_overdue_tasks_done
        [⟨1, "a", none, none, none, ⟨0, some 0⟩, TaskStatus.pending⟩] 5).2 = 1 :=
  ⟨by decide, by decide,
    (C2_catch_up [⟨1, "a", none, none, none, ⟨0, some 0⟩, TaskStatus.pending⟩] 5).1
      ⟨1, "a", none, none, none, ⟨0, some 0⟩, TaskStatus.done⟩
      (by decide) (by decide),
    by decide⟩

/-- C3: the sweep enqueues one transition job for each task with
status != DONE and due_date <= now and reports that number (the logged
count).  With no store failures, draining the queue completes every job with
the updated-to-DONE outcome, so the reported count equals the number of
tasks actually transitioned; every overdue PENDING task ends DONE and every
task not yet due keeps its status. -/
theorem C3_sweep (db : DB) (now : Int)
    (hnodup : (db.map (fun t => t.id)).Nodup) :
    (sweep (fun _ => false) db now).2.2
        = (schedule_due_tasks db now).map
            (fun _ => JobResult.completed UpdResult.updatedDone) ∧
    (sweep (fun _ => false) db now).2.1
        = ((sweep (fun _ => false) db now).2.2).count
            (JobResult.completed UpdResult.updatedDone) ∧
    (∀ i t, get_task db i = some t → t.status = TaskStatus.pending →
      t.due_date.instant ≤ now →
      status_of (sweep (fun _ => false) db now).1 i = some TaskStatus.done) ∧
    (∀ i t, get_task db i = some t → now < t.due_date.instant →
      status_of (sweep (fun _ => false) db now).1 i = status_of db i) := by
  have hall : ∀ i ∈ schedule_due_tasks db now,
      ∃ t, get_task db i = some t ∧ t.due_date.instant ≤ now := by
    intro i hi
    obtain ⟨u, hu, rfl⟩ := List.mem_map.mp hi
    exact ⟨u, get_task_of_mem_nodup hnodup (List.mem_filter.mp hu).1,
      overdueb_due (List.mem_filter.mp hu).2⟩
  have h1 : (sweep (fun _ => false) db now).2.2
      = (schedule_due_tasks db now).map
          (fun _ => JobResult.completed UpdResult.updatedDone) :=
    run_all_updated now (schedule_due_tasks db now) db hall
  refine ⟨h1, ?_, ?_, ?_⟩
  · rw [h1, count_const_jobresult]
    rfl
  · intro i t h hpend hdue
    exact run_done_of_mem (fun _ => false) now (schedule_due_tasks db now) db i t
      (mem_schedule_of_pending_due h hpend hdue) rfl h hdue
  · intro i t h hlt
    apply run_untouched
    intro j hj
    obtain ⟨u, hu, rfl⟩ := List.mem_map.mp hj
    intro heq
    have hgu : get_task db u.id = some u :=
      get_task_of_mem_nodup hnodup (List.mem_filter.mp hu).1
    rw [heq, h] at hgu
    have hut : t = u := by injection hgu
    have hd : u.due_date.instant ≤ now := overdueb_due (List.mem_filter.mp hu).2
    rw [← hut] at hd
    exact absurd hd (not_le.mpr hlt)

set_option maxRecDepth 8000 in
/-- Witness for C3 at the spec's example: three PENDING tasks due three
hours before, one hour before, and one hour after now
(now = 2025-01-01T00:00:00Z): the sweep reports count 2, tasks 1 and 2 end
DONE, task 3 stays PENDING. -/
theorem C3_witness :
    ((([⟨1, "a", none, none, none, ⟨1735678800, some 0⟩, TaskStatus.pending⟩,
        ⟨2, "b", none, none, none, ⟨1735686000, some 0⟩, TaskStatus.pending⟩,
        ⟨3, "c", none, none, none, ⟨1735693200, some 0⟩, TaskStatus.pending⟩]
        : DB).map (fun t => t.id)).Nodup) ∧
    (sweep (fun _ => false)
        [⟨1, "a", none, none, none, ⟨1735678800, some 0⟩, TaskStatus.pending⟩,
         ⟨2, "b", none, none, none, ⟨1735686000, some 0⟩, TaskStatus.pending⟩,
         ⟨3, "c", none, none, none, ⟨1735693200, some 0⟩, TaskStatus.pending⟩]
        1735689600).2.1 = 2 ∧
    status_of (sweep (fun _ => false)
        [⟨1, "a", none, none, none, ⟨1735678800, some 0⟩, TaskStatus.pending⟩,
         ⟨2, "b", none, none, none, ⟨1735686000, some 0⟩, TaskStatus.pending⟩,
         ⟨3, "c", none, none, none, ⟨1735693200, some 0⟩, TaskStatus.pending⟩]
        1735689600).1 1 = some TaskStatus.done ∧
    status_of (sweep (fun _ => false)
        [⟨1, "a", none, none, none, ⟨1735678800, some 0⟩, TaskStatus.pending⟩,
         ⟨2, "b", none, none, none, ⟨1735686000, some 0⟩, TaskStatus.pending⟩,
         ⟨3, "c", none, none, none, ⟨1735693200, some 0⟩, TaskStatus.pending⟩]
        1735689600).1 2 = some TaskStatus.done ∧
    status_of (sweep (fun _ => false)
        [⟨1, "a", none, none, none, ⟨1735678800, some 0⟩, TaskStatus.pending⟩,
         ⟨2, "b", none, none, none, ⟨1735686000, some 0⟩, TaskStatus.pending⟩,
         ⟨3, "c", none, none, none, ⟨1735693200, some 0⟩, TaskStatus.pending⟩]
        1735689600).1 3 = some TaskStatus.pending :=
  ⟨by decide, by decide,
    (C3_sweep
      [⟨1, "a", none, none, none, ⟨1735678800, some 0⟩, TaskStatus.pending⟩,
       ⟨2, "b", none, none, none, ⟨1735686000, some 0⟩, TaskStatus.pending⟩,
       ⟨3, "c", none, none, none, ⟨1735693200, some 0⟩, TaskStatus.pending⟩]
      1735689600 (by decide)).2.2.1 1
      ⟨1, "a", none, none, none, ⟨1735678800, some 0⟩, TaskStatus.pending⟩
      (by decide) rfl (by decide),
    (C3_sweep
      [⟨1, "a", none, none, none, ⟨1735678800, some 0⟩, TaskStatus.pending⟩,
       ⟨2, "b", none, none, none, ⟨1735686000, some 0⟩, TaskStatus.pending⟩,
       ⟨3, "c", none, none, none, ⟨1735693200, some 0⟩, TaskStatus.pending⟩]
      1735689600 (by decide)).2.2.1 2
      ⟨2, "b", none, none, none, ⟨1735686000, some 0⟩, TaskStatus.pending⟩
      (by decide) rfl (by decide),
    by decide⟩

/-- C4: sweep processing is isolated per task: the worker executes one job
per enqueued id whatever the store does, and every overdue PENDING task
whose own record the store can serve ends DONE regardless of store failures
(logged and re-raised inside the failing job only) on other tasks of the
batch. -/
theorem C4_partial_failure_isolation (db : DB) (now : Int)
    (store_fails : Nat → Bool) :
    (sweep store_fails db now).2.2.length = (schedule_due_tasks db now).length ∧
    (∀ i t, get_task db i = some t → t.status = TaskStatus.pending →
      t.due_date.instant ≤ now → store_fails i = false →
      status_of (sweep store_fails db now).1 i = some TaskStatus.done) := by
  constructor
  · exact run_length store_fails now (schedule_due_tasks db now) db
  · intro i t h hpend hdue hF
    exact run_done_of_mem store_fails now (schedule_due_tasks db now) db i t
      (mem_schedule_of_pending_due h hpend hdue) hF h hdue

set_option maxRecDepth 8000 in
/-- Witness for C4: two overdue PENDING tasks; the store fails while
processing task 1, whose job is recorded as raised, yet task 2 is still
driven through the transition and ends DONE. -/
theorem C4_witness :
    (sweep (fun i => i == 1)
        [⟨1, "a", none, none, none, ⟨0, some 0⟩, TaskStatus.pending⟩,
         ⟨2, "b", none, none, none, ⟨0, some 0⟩, TaskStatus.pending⟩] 5).2.2
      = [JobResult.raised, JobResult.completed UpdResult.updatedDone] ∧
    status_of (sweep (fun i => i == 1)
        [⟨1, "a", none, none, none, ⟨0, some 0⟩, TaskStatus.pending⟩,
         ⟨2, "b", none, none, none, ⟨0, some 0⟩, TaskStatus.pending⟩] 5).1 1
      = some TaskStatus.pending ∧
    status_of (sweep (fun i => i == 1)
        [⟨1, "a", none, none, none, ⟨0, some 0⟩, TaskStatus.pending⟩,
         ⟨2, "b", none, none, none, ⟨0, some 0⟩, TaskStatus.pending⟩] 5).1 2
      = some TaskStatus.done :=
  ⟨by decide, by decide,
    (C4_partial_failure_isolation
      [⟨1, "a", none, none, none, ⟨0, some 0⟩, TaskStatus.pending⟩,
       ⟨2, "b", none, none, none, ⟨0, some 0⟩, TaskStatus.pending⟩]
      5 (fun i => i == 1)).2 2
      ⟨2, "b", none, none, none, ⟨0, some 0⟩, TaskStatus.pending⟩
      (by decide) rfl (by decide) rfl⟩

/-- C8: status is monotonic through the core: across any single core
operation — a transition call, the startup catch-up, or a sweep with any
store-failure pattern — a DONE task never reverts to PENDING, and any row
whose status the operation changed now reads DONE (every status write the
core performs writes DONE). -/
theorem C8_monotonic {db db' : DB} (h : CoreStep db db') (i : Nat) :
    (status_of db i = some TaskStatus.done →
      status_of db' i = some TaskStatus.done) ∧
    (status_of db' i ≠ status_of db i →
      status_of db' i = some TaskStatus.done) := by
  cases h with
  | transition now task_id => exact statusMono_update db now task_id i
  | catch_up now => exact statusMono_mark db now i
  | sweep_run now store_fails =>
    exact statusMono_run store_fails now (schedule_due_tasks db now) db i

/-- Witness for C8: a task already DONE (due in the future) stays DONE
across a transition call. -/
theorem C8_witness :
    status_of [(⟨1, "a", none, none, none, ⟨10, some 0⟩,
        TaskStatus.done⟩ : Task)] 1 = some TaskStatus.done ∧
    status_of (update_task_status
        [⟨1, "a", none, none, none, ⟨10, some 0⟩, TaskStatus.done⟩] 0 1).db 1
      = some TaskStatus.done :=
  ⟨by decide,
    (C8_monotonic (CoreStep.transition
        [⟨1, "a", none, none, none, ⟨10, some 0⟩, TaskStatus.done⟩] 0 1) 1).1
      (by decide)⟩

set_option maxRecDepth 4000 in
/-- Witness for C10: a task with the 5-character text "hello" receives the
short description "hello..." (the suffix is appended although the text is
shorter than 100 characters). -/
theorem C10_witness :
    get_task [(⟨1, "a", none, none, some "hello", ⟨0, none⟩,
        TaskStatus.pending⟩ : Task)] 1
      = some ⟨1, "a", none, none, some "hello", ⟨0, none⟩, TaskStatus.pending⟩ ∧
    get_task (generate_short_description
        [⟨1, "a", none, none, some "hello", ⟨0, none⟩, TaskStatus.pending⟩] 1).1 1
      = some ⟨1, "a", some "hello...", none, some "hello", ⟨0, none⟩,
          TaskStatus.pending⟩ := by
  refine ⟨by decide, ?_⟩
  have h0 : get_task [(⟨1, "a", none, none, some "hello", ⟨0, none⟩,
      TaskStatus.pending⟩ : Task)] 1
      = some ⟨1, "a", none, none, some "hello", ⟨0, none⟩, TaskStatus.pending⟩ := by
    decide
  have h1 := (C10_short_description _ 1 _ h0).2.1
  rw [h1]
  decide

end TaskManager
